import Mathlib

/-!
Verification development for the media-tool main process.

Shallow embedding of the main-process modules of the application:
`frame-capturer.ts` (offscreen generative frame capture), `recorder.ts`
(screen recording with sequential frame capture), the video-processor
portion of `preload.ts` (filename parsing, duration probing, fan-out
encoding), and `bunny-api.ts` (CDN storage sync).

External effects (the offscreen browser surface, the spawned ffmpeg and
ffprobe processes, the filesystem and the network) are represented by
oracle parameters: a `stop` oracle gives the value of the module-level
cancellation flag observed at each loop check, a `fate` oracle tells
whether (and at which step) the try-block of a loop iteration throws,
probe results and remote listings are passed in as data.  Loops are
embedded as structurally recursive functions producing a flat trace of
the awaited actions, in the order the sequential `async` code awaits
them.
-/

/-! ### frame-capturer.ts : data model -/

/-- `FrameCaptureProgress.status` in `frame-capturer.ts`
(`'capturing' | 'completed' | 'error' | 'cancelled'`). -/
inductive CaptureStatus where
  | capturing
  | completed
  | error
  | cancelled
deriving DecidableEq, Repr

/-- The `FrameCaptureProgress` record reported by `onProgress`
(`currentFrame`, `totalFrames`, `status`, `error?`).  The `outputFolder`
field is omitted: it is the constant folder path of the session. -/
structure FrameCaptureProgress where
  currentFrame : Nat
  totalFrames : Nat
  status : CaptureStatus
  errorMsg : Option String := none
deriving DecidableEq, Repr

/-- Where (if anywhere) the try-block of one capture-loop iteration
throws: the `executeJavaScript('window.__advanceFrame()')` call, the
`capturePage()` snapshot, or the `writeFrameFile` disk write.  A write
that rejects is modelled as not having produced the file (the write is
treated as atomic). -/
inductive FrameFate where
  | ok
  | failAdvance
  | failSnapshot
  | failWrite
deriving DecidableEq, Repr

/-- One awaited action of the generative capture loop, in program order:
the `shouldStop`/window-destroyed check, the animation advance, the
`capturePage` snapshot, the start and the completion of the frame-file
write, and an `onProgress` callback invocation. -/
inductive CapEvent where
  | check (frame : Nat)
  | advance (frame : Nat)
  | snapshot (frame : Nat)
  | writeStart (frame : Nat)
  | writeEnd (frame : Nat)
  | emit (p : FrameCaptureProgress)
deriving DecidableEq, Repr

/-- The frame index an event belongs to; progress events are indexed by
their reported `currentFrame`. -/
def CapEvent.frameIx : CapEvent → Nat
  | .check n => n
  | .advance n => n
  | .snapshot n => n
  | .writeStart n => n
  | .writeEnd n => n
  | .emit p => p.currentFrame

/-- Events of the try-block of iteration `frameNum` of
`captureGenerativeFrames` (lines 246-273): advance the animation, sleep,
capture the page, encode, write `frame_{i:06d}` and await the write,
update `state.currentFrame` and report progress.  A throwing step
truncates the block (the `catch` logs and the loop continues). -/
def captureIteration (fate : FrameFate) (frameNum total : Nat) : List CapEvent :=
  match fate with
  | .ok => [.advance frameNum, .snapshot frameNum, .writeStart frameNum,
            .writeEnd frameNum,
            .emit ⟨frameNum + 1, total, .capturing, none⟩]
  | .failAdvance => [.advance frameNum]
  | .failSnapshot => [.advance frameNum, .snapshot frameNum]
  | .failWrite => [.advance frameNum, .snapshot frameNum, .writeStart frameNum]

/-- The `for (let frameNum = 0; frameNum < totalFrames; frameNum++)` loop
of `captureGenerativeFrames`, with `remaining` the number of indices left
(`total - frameNum`).  At each iteration the cancellation check runs
first; if `shouldStop` (or a dead window) is observed the loop reports
`cancelled` with `currentFrame = frameNum` and returns.  After the last
index the function reports `completed` with `currentFrame = totalFrames`. -/
def captureLoop (total : Nat) (stop : Nat → Bool) (fate : Nat → FrameFate) :
    Nat → Nat → List CapEvent
  | 0, _ => [.emit ⟨total, total, .completed, none⟩]
  | remaining + 1, frameNum =>
    if stop frameNum then
      [.check frameNum, .emit ⟨frameNum, total, .cancelled, none⟩]
    else
      .check frameNum :: (captureIteration (fate frameNum) frameNum total
        ++ captureLoop total stop fate remaining (frameNum + 1))

/-- Trace of the capture phase of `captureGenerativeFrames` for a session
of `total` frames. -/
def captureGenerativeFrames (total : Nat) (stop : Nat → Bool)
    (fate : Nat → FrameFate) : List CapEvent :=
  captureLoop total stop fate total 0

/-- Frame indices whose file write completed (one write of
`frame_{i:06d}.{ext}` per `writeEnd`): the files present in the output
folder, since nothing in the module ever deletes a written frame. -/
def capturedFiles (tr : List CapEvent) : List Nat :=
  tr.filterMap (fun e => match e with | .writeEnd n => some n | _ => none)

/-- The progress events reported to `onProgress`, in order. -/
def emittedProgress (tr : List CapEvent) : List FrameCaptureProgress :=
  tr.filterMap (fun e => match e with | .emit p => some p | _ => none)

/-- Zero-pad a decimal string to six digits, as
`String.padStart(6, '0')` does. -/
def pad6 (s : String) : String :=
  String.mk (List.replicate (6 - s.length) '0') ++ s

/-- The on-disk name `frame_{i:06d}.{ext}` of frame `n`. -/
def frameFileName (ext : String) (n : Nat) : String :=
  "frame_" ++ pad6 (toString n) ++ "." ++ ext

/-! ### frame-capturer.ts : module state, stop and cleanup -/

/-- The offscreen `BrowserWindow` handle: only whether `isDestroyed()`
holds matters to the module. -/
structure OffscreenWindow where
  destroyed : Bool
deriving DecidableEq, Repr

/-- The module-level `state` record of `frame-capturer.ts`.  The
`ffmpegProcess` field records whether a child-process handle is held.
(`outputFolder` and `onProgress` are omitted: they never influence
control flow.) -/
structure CaptureState where
  isCapturing : Bool
  shouldStop : Bool
  offscreenWindow : Option OffscreenWindow
  ffmpegProcess : Bool
  currentFrame : Nat
  totalFrames : Nat
deriving DecidableEq, Repr

/-- Externally visible teardown effects of `stopFrameCapture` /
`cleanup`: closing the offscreen window and sending SIGTERM to the
ffmpeg child.  Neither touches any written frame file. -/
inductive TeardownAction where
  | closeWindow
  | killProcess
deriving DecidableEq, Repr

/-- `stopFrameCapture()`: sets `shouldStop`, closes the window if it
exists and is not destroyed (nulling the field only in that case), and
kills the ffmpeg child inside a `try` (so a dead process cannot raise),
nulling that field.  Returns the new state and the effects performed. -/
def stopFrameCapture (s : CaptureState) : CaptureState × List TeardownAction :=
  let s1 : CaptureState := { s with shouldStop := true }
  let winStep : Option OffscreenWindow × List TeardownAction :=
    match s1.offscreenWindow with
    | some w => if w.destroyed then (some w, []) else (none, [TeardownAction.closeWindow])
    | none => (none, [])
  let procStep : List TeardownAction :=
    if s1.ffmpegProcess then [TeardownAction.killProcess] else []
  ({ s1 with offscreenWindow := winStep.1, ffmpegProcess := false },
   winStep.2 ++ procStep)

/-- `cleanup()`: stops capturing, sets `shouldStop`, closes the window if
alive and nulls it unconditionally, kills the ffmpeg child, and resets
the counters.  The resulting state does not depend on the old one. -/
def cleanupCapture (_s : CaptureState) : CaptureState :=
  { isCapturing := false, shouldStop := true, offscreenWindow := none,
    ffmpegProcess := false, currentFrame := 0, totalFrames := 0 }

/-- Parameters of one `captureGenerativeFrames` run that the external
world decides: the frame count, whether `loadURL` succeeds, and the
per-iteration oracles. -/
structure CaptureRunInput where
  total : Nat
  loadOk : Bool
  stop : Nat → Bool
  fate : Nat → FrameFate

/-- `captureGenerativeFrames` entry (lines 150-279): the single-flight
guard reports `error 'Capture already in progress'` and returns without
touching the session state; a failed `loadURL` cleans up and reports a
load error; otherwise the capture loop runs and every exit path calls
`cleanup()`. -/
def captureGenerativeFramesRun (s : CaptureState) (inp : CaptureRunInput) :
    CaptureState × List CapEvent :=
  if s.isCapturing then
    (s, [CapEvent.emit ⟨0, 0, CaptureStatus.error, some "Capture already in progress"⟩])
  else if inp.loadOk then
    (cleanupCapture s, captureLoop inp.total inp.stop inp.fate inp.total 0)
  else
    (cleanupCapture s,
     [CapEvent.emit ⟨0, inp.total, CaptureStatus.error, some "Failed to load artwork"⟩])

/-- Result of `getVideoInfo` (an ffprobe run) as consumed by
`extractVideoFrames`. -/
structure VideoInfo where
  fps : ℚ
  duration : ℚ
  width : Nat
  height : Nat
deriving DecidableEq, Repr

/-- How the spawned ffmpeg run of `extractVideoFrames` ends: a `close`
event with an exit code, or an `error` event on the process. -/
inductive FfmpegEnd where
  | closed (code : Int)
  | procErr (msg : String)
deriving DecidableEq, Repr

/-- `extractVideoFrames` (lines 284-391): the same single-flight guard,
then the duration probe (whose failure reports an error before any state
is taken), then `ceil(duration * fps)` frames are extracted by a spawned
ffmpeg whose `close` handler reports `cancelled` when `shouldStop` was
set, `completed` on exit code 0 and an error otherwise.  `lastFrame` is
the last `frame=` count parsed from the progress stream. -/
def extractVideoFramesRun (s : CaptureState) (probe : Except String VideoInfo)
    (fps : ℚ) (lastFrame : Nat) (stopRequested : Bool) (outcome : FfmpegEnd) :
    CaptureState × List FrameCaptureProgress :=
  if s.isCapturing then
    (s, [⟨0, 0, CaptureStatus.error, some "Capture already in progress"⟩])
  else
    match probe with
    | .error e => (s, [⟨0, 0, CaptureStatus.error, some ("Failed to get video info: " ++ e)⟩])
    | .ok info =>
      let totalFrames : Nat := (info.duration * fps).ceil.toNat
      match outcome with
      | .procErr m =>
        (cleanupCapture s, [⟨0, totalFrames, CaptureStatus.error, some ("ffmpeg error: " ++ m)⟩])
      | .closed code =>
        if stopRequested then
          (cleanupCapture s, [⟨lastFrame, totalFrames, CaptureStatus.cancelled, none⟩])
        else if code = 0 then
          (cleanupCapture s, [⟨totalFrames, totalFrames, CaptureStatus.completed, none⟩])
        else
          (cleanupCapture s, [⟨lastFrame, totalFrames, CaptureStatus.error,
            some "ffmpeg failed"⟩])

/-! ### recorder.ts -/

/-- The module-level `state` of `recorder.ts` (fields that influence
control flow). -/
structure RecordingState where
  isRecording : Bool
  shouldStop : Bool
  windowAlive : Bool
  frameCount : Nat
  totalFrames : Nat
deriving DecidableEq, Repr

/-- One awaited action of the recorder's sequential capture loop
(`captureFramesSequentially`, lines 233-282): identical structure to the
generative capture loop, except progress is a percentage callback and
loop completion hands over to the encode phase. -/
inductive RecEvent where
  | check (frame : Nat)
  | advance (frame : Nat)
  | snapshot (frame : Nat)
  | writeStart (frame : Nat)
  | writeEnd (frame : Nat)
  | progressAt (frame : Nat)
  | encodeStart (total : Nat)
deriving DecidableEq, Repr

/-- Frame index of a recorder-loop event. -/
def RecEvent.frameIx : RecEvent → Nat
  | .check n => n
  | .advance n => n
  | .snapshot n => n
  | .writeStart n => n
  | .writeEnd n => n
  | .progressAt n => n
  | .encodeStart t => t

/-- Events of the try-block of one recorder-loop iteration: advance the
animation, sleep 5ms, capture the page, encode to JPEG, await the frame
write, bump `frameCount` and report percent progress.  A throwing step
truncates the block and the loop continues. -/
def recIteration (fate : FrameFate) (frameNum : Nat) : List RecEvent :=
  match fate with
  | .ok => [.advance frameNum, .snapshot frameNum, .writeStart frameNum,
            .writeEnd frameNum, .progressAt (frameNum + 1)]
  | .failAdvance => [.advance frameNum]
  | .failSnapshot => [.advance frameNum, .snapshot frameNum]
  | .failWrite => [.advance frameNum, .snapshot frameNum, .writeStart frameNum]

/-- `captureFramesSequentially`: each iteration checks `shouldStop` and
window liveness first (returning silently when set), then runs the
try-block; after the last frame the encode phase starts. -/
def captureFramesSequentially (total : Nat) (stop : Nat → Bool)
    (fate : Nat → FrameFate) : Nat → Nat → List RecEvent
  | 0, _ => [.encodeStart total]
  | remaining + 1, frameNum =>
    if stop frameNum then
      [.check frameNum]
    else
      .check frameNum :: (recIteration (fate frameNum) frameNum
        ++ captureFramesSequentially total stop fate remaining (frameNum + 1))

/-- `FRAME_RATE = 30` in `recorder.ts`. -/
def FRAME_RATE : Nat := 30

/-- How a `startRecording` call resolves before (or as) the capture loop
starts.  `busy` stands for the guard's `onComplete(null, 'Recording
already in progress')` call; `dialogCancelled` for `onComplete(null)`
after a cancelled save dialog; `loadFailed` for the `loadURL` failure
path; `captureStarted` carries the capture-loop trace. -/
inductive RecordingOutcome where
  | busy
  | dialogCancelled
  | loadFailed (msg : String)
  | captureStarted (trace : List RecEvent)

/-- `startRecording` (lines 102-226) up to the start of the capture
loop: the single-flight guard (`isRecording`), the save dialog, state
initialisation, and the artwork load.  `duration * FRAME_RATE` frames
are scheduled.  The encode phase that follows a completed loop is
modelled separately and does not affect these paths. -/
def startRecording (rs : RecordingState) (duration : Nat)
    (dialogOk loadOk : Bool) (stop : Nat → Bool) (fate : Nat → FrameFate) :
    RecordingState × RecordingOutcome :=
  if rs.isRecording then
    (rs, RecordingOutcome.busy)
  else if !dialogOk then
    (rs, RecordingOutcome.dialogCancelled)
  else
    let total := duration * FRAME_RATE
    let rs1 : RecordingState :=
      { rs with isRecording := true, shouldStop := false, frameCount := 0,
                totalFrames := total, windowAlive := true }
    if !loadOk then
      ({ rs1 with isRecording := false, shouldStop := true, windowAlive := false,
                  frameCount := 0, totalFrames := 0 },
       RecordingOutcome.loadFailed "Failed to load artwork")
    else
      (rs1, RecordingOutcome.captureStarted
        (captureFramesSequentially total stop fate total 0))

/-! ### preload.ts (video-processor) : filename parsing -/

/-- Strip the filename extension, as `filename.replace(/\.[^/.]+$/, '')`
does: remove a final dot followed by one or more characters none of
which is a dot or a slash; leave the name unchanged when no such suffix
exists. -/
def stripExt (l : List Char) : List Char :=
  let r := l.reverse
  let seg := r.takeWhile (fun c => c != '.' && c != '/')
  match r.drop seg.length with
  | '.' :: rest => if seg.isEmpty then l else rest.reverse
  | _ => l

/-- Try to match the regex `_v(\d+)(?:_|$)` (case-insensitive) at the
head of the character list, returning the captured digit run: an
underscore, a `v`, one or more decimal digits, then another underscore
or the end of the string. -/
def vMarkerHere (l : List Char) : Option (List Char) :=
  match l with
  | '_' :: v :: rest =>
    if v == 'v' || v == 'V' then
      let ds := rest.takeWhile Char.isDigit
      if ds.isEmpty then none
      else
        match rest.dropWhile Char.isDigit with
        | [] => some ds
        | '_' :: _ => some ds
        | _ => none
    else none
  | _ => none

/-- Leftmost match of the variation marker, as
`nameWithoutExt.match(/_v(\d+)(?:_|$)/i)` finds it: returns the
characters before the match (`substring(0, match.index)`) and the
captured digits. -/
def findVMarker : List Char → Option (List Char × List Char)
  | [] => none
  | c :: rest =>
    match vMarkerHere (c :: rest) with
    | some ds => some ([], ds)
    | none =>
      match findVMarker rest with
      | some (pre, ds) => some (c :: pre, ds)
      | none => none

/-- `split('_')` on a character list, with JavaScript semantics: the
empty string splits to one empty field, separators at the ends produce
empty fields. -/
def splitUnderscore : List Char → List (List Char)
  | [] => [[]]
  | '_' :: rest => [] :: splitUnderscore rest
  | c :: rest =>
    match splitUnderscore rest with
    | [] => [[c]]
    | h :: t => (c :: h) :: t

/-- `parseInt(digits, 10)` on a nonempty run of decimal digits. -/
def digitsToNat (ds : List Char) : Nat :=
  ds.foldl (fun a c => a * 10 + (c.toNat - '0'.toNat)) 0

/-- The result record of `parseFilename`. -/
structure ParsedName where
  artist : String
  title : String
  variation : Nat
deriving DecidableEq, Repr

/-- `parseFilename` (preload.ts video-processor, lines 503-567): strip
the extension, find the `_v{number}` marker; with a marker, split the
text before it on underscores — three or more parts make the first two
the artist and the rest the title, exactly two make them artist and
title, fewer fall back to the `unknown` artist sentinel; without a
marker, split the whole name the same way with variation 1. -/
def parseFilename (filename : String) : ParsedName :=
  let name := stripExt filename.data
  match findVMarker name with
  | some (beforeVariation, ds) =>
    let variation := digitsToNat ds
    match splitUnderscore beforeVariation with
    | a :: b :: c :: rest =>
      { artist := String.mk (a ++ '_' :: b),
        title := String.mk (List.intercalate ['_'] (c :: rest)),
        variation := variation }
    | [a, b] =>
      { artist := String.mk a, title := String.mk b, variation := variation }
    | _ =>
      { artist := "unknown",
        title := if beforeVariation.isEmpty then String.mk name
                 else String.mk beforeVariation,
        variation := variation }
  | none =>
    match splitUnderscore name with
    | a :: b :: rest =>
      { artist := String.mk a,
        title := String.mk (List.intercalate ['_'] (b :: rest)),
        variation := 1 }
    | _ => { artist := "unknown", title := String.mk name, variation := 1 }

/-- `generateFolderName`: `[artist]_[title]_v[number]`. -/
def generateFolderName (artist title : String) (variation : Nat) : String :=
  artist ++ "_" ++ title ++ "_v" ++ toString variation

/-! ### preload.ts (video-processor) : fan-out encoding -/

inductive Codec where
  | h264
  | hevc
  | vp9
deriving DecidableEq, Repr

inductive Format where
  | card
  | featured
  | page
deriving DecidableEq, Repr

/-- One entry of `FORMAT_CONFIGS`. -/
structure FormatConfig where
  name : Format
  width : Nat
  height : Nat
  duration : Option ℚ
  startTime : Option ℚ
deriving DecidableEq, Repr

def FORMAT_CONFIGS : List FormatConfig :=
  [⟨Format.card, 640, 640, some 5, some 15⟩,
   ⟨Format.featured, 1500, 1500, none, none⟩,
   ⟨Format.page, 1000, 1000, none, none⟩]

def CODECS : List Codec := [Codec.h264, Codec.hevc, Codec.vp9]

def MINIMUM_DURATION_SECONDS : ℚ := 30

/-- `getVideoDuration` of the video-processor module (lines 465-492):
on exit code 0 the trimmed stdout is parsed with `parseFloat`;
`parsedOutput = none` stands for a NaN parse (non-numeric output) and
falls back to 30; a non-zero exit code rejects. -/
def getVideoDuration (exitCode : Int) (parsedOutput : Option ℚ) : Except String ℚ :=
  if exitCode = 0 then Except.ok (parsedOutput.getD 30)
  else Except.error ("ffprobe exited with code " ++ toString exitCode)

/-- The `codec` discriminant of a progress update: a real codec or the
`'thumbnail'` pseudo-codec. -/
inductive JobCodec where
  | thumbnail
  | codec (c : Codec)
deriving DecidableEq, Repr

inductive JobStatus where
  | processing
  | completed
  | error
deriving DecidableEq, Repr

/-- One `onProgress` update of `processVideoFile`. -/
structure JobUpdate where
  format : Format
  codec : JobCodec
  progress : Nat
  status : JobStatus
deriving DecidableEq, Repr

/-- Updates of the thumbnail job for one format config: `processing` at
0, then `completed` at 100, or `error` at 0 when `generateThumbnail`
rejects (the failure is caught, logged, and the loop continues). -/
def thumbnailUpdates (fc : FormatConfig) (fails : Bool) : List JobUpdate :=
  [⟨fc.name, JobCodec.thumbnail, 0, JobStatus.processing⟩] ++
  (if fails then [⟨fc.name, JobCodec.thumbnail, 0, JobStatus.error⟩]
   else [⟨fc.name, JobCodec.thumbnail, 100, JobStatus.completed⟩])

/-- Updates of one encode job (intermediate percentage callbacks
elided): `processing` at 0, then `completed` at 100, or `error` at 0
when the encode promise rejects (caught by the per-job `try`/`catch`,
which logs and continues to the next codec). -/
def encodeUpdates (fc : FormatConfig) (c : Codec) (fails : Bool) : List JobUpdate :=
  [⟨fc.name, JobCodec.codec c, 0, JobStatus.processing⟩] ++
  (if fails then [⟨fc.name, JobCodec.codec c, 0, JobStatus.error⟩]
   else [⟨fc.name, JobCodec.codec c, 100, JobStatus.completed⟩])

/-- `processVideoFile` (lines 765-838): parse the filename, probe the
duration, throw the minimum-duration error before creating the output
directory or starting any job, then for each format config generate the
thumbnail and encode to each codec, strictly one job at a time, each
job's failure isolated by its own `try`/`catch`.  `thumbFail f` /
`encFail f c` tell which jobs' promises reject.  Returns the artwork
folder name and the update stream. -/
def processVideoFile (filename : String) (probeExit : Int)
    (probeParsed : Option ℚ) (thumbFail : Format → Bool)
    (encFail : Format → Codec → Bool) :
    Except String (String × List JobUpdate) :=
  let parsed := parseFilename filename
  match getVideoDuration probeExit probeParsed with
  | .error e => .error e
  | .ok videoDuration =>
    if videoDuration < MINIMUM_DURATION_SECONDS then
      .error ("Video \"" ++ filename ++ "\" is only "
        ++ toString (round videoDuration) ++ "s. Minimum required duration is 30s.")
    else
      .ok (generateFolderName parsed.artist parsed.title parsed.variation,
        FORMAT_CONFIGS.flatMap (fun fc =>
          thumbnailUpdates fc (thumbFail fc.name) ++
          CODECS.flatMap (fun c => encodeUpdates fc c (encFail fc.name c))))

/-- The terminal (non-`processing`) updates of the encode jobs of a
batch, in order: the per-job verdicts. -/
def jobTerminals (us : List JobUpdate) : List JobUpdate :=
  us.filter (fun u => !(u.status == JobStatus.processing)
    && !(u.codec == JobCodec.thumbnail))

/-- Spec-side comparator: the verdict expected for the `(fc, c)` encode
job — `error` at 0 when that job failed, `completed` at 100 otherwise. -/
def encodeVerdict (fc : FormatConfig) (c : Codec) (fails : Bool) : JobUpdate :=
  if fails then ⟨fc.name, JobCodec.codec c, 0, JobStatus.error⟩
  else ⟨fc.name, JobCodec.codec c, 100, JobStatus.completed⟩

/-! ### bunny-api.ts -/

/-- A remote storage entry as the Bunny list endpoint reports it: a leaf
object with its `Length`, or a directory entry (`IsDirectory`) together
with the listing of its subpath. -/
inductive REntry where
  | file (name : String) (size : Nat)
  | dir (name : String) (children : List REntry)

/-- A leaf file collected by the recursive listing (`ObjectName` and
`Length`). -/
structure RFile where
  name : String
  length : Nat
deriving DecidableEq, Repr

mutual
/-- `listFilesRecursively` (lines 204-225): depth-first walk of a remote
listing, descending into every `IsDirectory` entry and collecting only
leaf files, in walk order. -/
def listFilesRecursively : List REntry → List RFile
  | [] => []
  | e :: es => listEntryFiles e ++ listFilesRecursively es
/-- Files contributed by one entry of a listing. -/
def listEntryFiles : REntry → List RFile
  | .file n sz => [⟨n, sz⟩]
  | .dir _ children => listFilesRecursively children
end

mutual
/-- Spec-side comparator: the number of leaf (non-directory) entries of
a remote subtree, nested subdirectories included. -/
def specLeafCount : REntry → Nat
  | .file _ _ => 1
  | .dir _ cs => specLeafCountList cs
/-- Spec-side comparator, over a listing. -/
def specLeafCountList : List REntry → Nat
  | [] => 0
  | e :: es => specLeafCount e + specLeafCountList es
end

mutual
/-- Spec-side comparator: the byte sum over only the leaf entries of a
remote subtree. -/
def specLeafBytes : REntry → Nat
  | .file _ sz => sz
  | .dir _ cs => specLeafBytesList cs
/-- Spec-side comparator, over a listing. -/
def specLeafBytesList : List REntry → Nat
  | [] => 0
  | e :: es => specLeafBytes e + specLeafBytesList es
end

inductive DlStatus where
  | listing
  | downloading
  | completed
  | error
deriving DecidableEq, Repr

/-- The `DownloadProgress` record of `bunny-api.ts`. -/
structure DownloadProgress where
  totalFiles : Nat
  downloadedFiles : Nat
  currentFile : String
  totalBytes : Nat
  downloadedBytes : Nat
  status : DlStatus
  errorMsg : Option String := none
deriving DecidableEq, Repr

/-- One observable step of `downloadAllContent`: a `listFiles` HTTP GET,
a file GET (a transfer attempt), or an `onProgress` call. -/
inductive DlEvent where
  | listCall
  | transfer (name : String)
  | progress (p : DownloadProgress)
deriving DecidableEq, Repr

def DlEvent.isListCall : DlEvent → Bool
  | .listCall => true
  | _ => false

def DlEvent.isTransfer : DlEvent → Bool
  | .transfer _ => true
  | _ => false

mutual
/-- The `listFiles` calls `listFilesRecursively` performs below the root
call: one per directory entry descended into, in walk order. -/
def listTrace : List REntry → List DlEvent
  | [] => []
  | e :: es => listTraceEntry e ++ listTrace es
/-- List calls contributed by one entry. -/
def listTraceEntry : REntry → List DlEvent
  | .file _ _ => []
  | .dir _ cs => DlEvent.listCall :: listTrace cs
end

/-- The sequential GET loop of `downloadAllContent` over the listed
files (the `IsDirectory` skip never fires: the listing holds only
leaves): for each file a progress event, the GET, and on success a
progress event with the bumped counters; a failed GET reports an
`error` progress event and rethrows, aborting the remaining files.  On
normal exit the `completed` progress event is reported. -/
def transferLoop (totalFiles totalBytes : Nat) (dl : String → Bool) :
    List RFile → Nat → Nat → List DlEvent × Option String
  | [], done, bytes =>
    ([DlEvent.progress ⟨totalFiles, done, "", totalBytes, bytes, DlStatus.completed, none⟩],
     none)
  | f :: fs, done, bytes =>
    let pre := DlEvent.progress
      ⟨totalFiles, done, f.name, totalBytes, bytes, DlStatus.downloading, none⟩
    if dl f.name then
      let post := DlEvent.progress
        ⟨totalFiles, done + 1, f.name, totalBytes, bytes + f.length, DlStatus.downloading, none⟩
      let rest := transferLoop totalFiles totalBytes dl fs (done + 1) (bytes + f.length)
      (pre :: DlEvent.transfer f.name :: post :: rest.1, rest.2)
    else
      ([pre, DlEvent.transfer f.name,
        DlEvent.progress ⟨totalFiles, done, f.name, totalBytes, bytes, DlStatus.error,
          some ("Failed to download " ++ f.name)⟩],
       some ("Failed to download " ++ f.name))

/-- `downloadAllContent` (lines 292-382): a listing-phase progress
event, then the complete recursive listing (the root `listFiles` call
first; `base = none` means the base path answers 404, which the listing
rethrows and nothing in this function catches), then the transfer-phase
progress event with the computed totals and the sequential GET loop.
Returns the event trace and the error surfaced to the caller, if any. -/
def downloadAllContent (base : Option (List REntry)) (dl : String → Bool) :
    List DlEvent × Option String :=
  let initial := DlEvent.progress ⟨0, 0, "", 0, 0, DlStatus.listing, none⟩
  match base with
  | none => ([initial, DlEvent.listCall], some "List failed: 404")
  | some entries =>
    let files := listFilesRecursively entries
    let totalFiles := files.length
    let totalBytes := (files.map RFile.length).sum
    let startEv := DlEvent.progress
      ⟨totalFiles, 0, "", totalBytes, 0, DlStatus.downloading, none⟩
    let rest := transferLoop totalFiles totalBytes dl files 0 0
    (initial :: DlEvent.listCall :: (listTrace entries ++ startEv :: rest.1), rest.2)

/-- `scanStorageContent` (lines 264-287): the same recursive listing,
but its `catch` turns any error whose message contains `404` — in
particular the not-found base path — into the empty result `(0, 0)`;
otherwise the non-directory file count and byte sum are returned. -/
def scanStorageContent (base : Option (List REntry)) : Except String (Nat × Nat) :=
  match base with
  | none => Except.ok (0, 0)
  | some entries =>
    let files := listFilesRecursively entries
    Except.ok (files.length, (files.map RFile.length).sum)

/-! ### Helper lemmas : traces of the generative capture loop -/

theorem capturedFiles_append (a b : List CapEvent) :
    capturedFiles (a ++ b) = capturedFiles a ++ capturedFiles b := by
  simp [capturedFiles]

theorem emittedProgress_append (a b : List CapEvent) :
    emittedProgress (a ++ b) = emittedProgress a ++ emittedProgress b := by
  simp [emittedProgress]

theorem captureLoop_files_no_stop (total : Nat) (fate : Nat → FrameFate) :
    ∀ r n, capturedFiles (captureLoop total (fun _ => false) fate r n)
      = (List.range' n r).filter (fun i => fate i == FrameFate.ok)
  | 0, n => by simp [captureLoop, capturedFiles]
  | r + 1, n => by
    have ih := captureLoop_files_no_stop total fate r (n + 1)
    rw [List.range'_succ, List.filter_cons]
    cases h : fate n <;>
      simp [captureLoop, captureIteration, capturedFiles, h, ih,
        List.filterMap_append] <;>
      simpa [capturedFiles] using ih

theorem emittedProgress_cons_check (n : Nat) (l : List CapEvent) :
    emittedProgress (CapEvent.check n :: l) = emittedProgress l := rfl

theorem emittedProgress_cons_advance (n : Nat) (l : List CapEvent) :
    emittedProgress (CapEvent.advance n :: l) = emittedProgress l := rfl

theorem emittedProgress_cons_snapshot (n : Nat) (l : List CapEvent) :
    emittedProgress (CapEvent.snapshot n :: l) = emittedProgress l := rfl

theorem emittedProgress_cons_writeStart (n : Nat) (l : List CapEvent) :
    emittedProgress (CapEvent.writeStart n :: l) = emittedProgress l := rfl

theorem emittedProgress_cons_writeEnd (n : Nat) (l : List CapEvent) :
    emittedProgress (CapEvent.writeEnd n :: l) = emittedProgress l := rfl

theorem emittedProgress_cons_emit (p : FrameCaptureProgress) (l : List CapEvent) :
    emittedProgress (CapEvent.emit p :: l) = p :: emittedProgress l := rfl

theorem emittedProgress_iteration (fate : FrameFate) (n total : Nat)
    (l : List CapEvent) :
    emittedProgress (captureIteration fate n total ++ l)
      = (if fate = FrameFate.ok
         then [(⟨n + 1, total, CaptureStatus.capturing, none⟩ : FrameCaptureProgress)]
         else []) ++ emittedProgress l := by
  cases fate <;>
    simp [captureIteration, emittedProgress_cons_advance, emittedProgress_cons_snapshot,
      emittedProgress_cons_writeStart, emittedProgress_cons_writeEnd,
      emittedProgress_cons_emit, List.cons_append, List.nil_append]

theorem captureLoop_last_emit (total : Nat) (fate : Nat → FrameFate) :
    ∀ r n, (emittedProgress (captureLoop total (fun _ => false) fate r n)).getLast?
      = some ⟨total, total, CaptureStatus.completed, none⟩
  | 0, n => by simp [captureLoop, emittedProgress]
  | r + 1, n => by
    have ih := captureLoop_last_emit total fate r (n + 1)
    have hne : emittedProgress (captureLoop total (fun _ => false) fate r (n + 1)) ≠ [] := by
      intro hempty
      rw [hempty] at ih
      simp at ih
    have hstep : captureLoop total (fun _ => false) fate (r + 1) n
        = CapEvent.check n :: (captureIteration (fate n) n total
            ++ captureLoop total (fun _ => false) fate r (n + 1)) := by
      simp [captureLoop]
    rw [hstep, emittedProgress_cons_check, emittedProgress_iteration]
    cases h : fate n
    · rw [if_pos rfl, List.getLast?_append_of_ne_nil _ hne]; exact ih
    · rw [if_neg (by decide), List.nil_append]; exact ih
    · rw [if_neg (by decide), List.nil_append]; exact ih
    · rw [if_neg (by decide), List.nil_append]; exact ih

/-- C1 counterexample: with `totalFrames = 2` and a transient snapshot
failure at frame 0, the run still ends with status `completed` and
`currentFrame = totalFrames`, but only `frame_000001.png` was written —
index 0 is skipped, refuting "exactly N image files ... with no index
skipped ... even when individual frame captures fail transiently". -/
theorem captureGenerativeFrames_failed_frame_skips_index :
    (emittedProgress (captureGenerativeFrames 2 (fun _ => false)
        (fun n => if n = 0 then FrameFate.failSnapshot else FrameFate.ok))).getLast?
      = some ⟨2, 2, CaptureStatus.completed, none⟩ ∧
    capturedFiles (captureGenerativeFrames 2 (fun _ => false)
        (fun n => if n = 0 then FrameFate.failSnapshot else FrameFate.ok)) = [1] ∧
    (capturedFiles (captureGenerativeFrames 2 (fun _ => false)
        (fun n => if n = 0 then FrameFate.failSnapshot else FrameFate.ok))).map
        (frameFileName "png") = ["frame_000001.png"] ∧
    capturedFiles (captureGenerativeFrames 2 (fun _ => false)
        (fun n => if n = 0 then FrameFate.failSnapshot else FrameFate.ok))
      ≠ List.range 2 := by
  refine ⟨rfl, rfl, rfl, ?_⟩
  decide

/-- C1 (amended): a generative capture run that never observes
cancellation reports terminal status `completed` with
`currentFrame = totalFrames`, and the output folder holds exactly one
`frame_{i:06d}` file for each index `i < N` whose capture succeeded, in
increasing order with no duplicates; a failed iteration is logged, the
loop continues, and that index's file is absent. -/
theorem captureGenerativeFrames_completed_writes_succeeded_indices
    (N : Nat) (fate : Nat → FrameFate) :
    capturedFiles (captureGenerativeFrames N (fun _ => false) fate)
      = (List.range N).filter (fun i => fate i == FrameFate.ok) ∧
    (emittedProgress (captureGenerativeFrames N (fun _ => false) fate)).getLast?
      = some ⟨N, N, CaptureStatus.completed, none⟩ ∧
    (capturedFiles (captureGenerativeFrames N (fun _ => false) fate)).Nodup := by
  have hfiles : capturedFiles (captureGenerativeFrames N (fun _ => false) fate)
      = (List.range N).filter (fun i => fate i == FrameFate.ok) := by
    rw [captureGenerativeFrames, captureLoop_files_no_stop, List.range_eq_range']
  refine ⟨hfiles, captureLoop_last_emit N fate N 0, ?_⟩
  rw [hfiles]
  exact (List.nodup_range N).filter _

theorem capturedFiles_iteration (fate : FrameFate) (n total : Nat)
    (l : List CapEvent) :
    capturedFiles (captureIteration fate n total ++ l)
      = (if fate = FrameFate.ok then [n] else []) ++ capturedFiles l := by
  cases fate <;> simp [captureIteration, capturedFiles]

theorem captureLoop_cancel (total k : Nat) (stop : Nat → Bool)
    (fate : Nat → FrameFate) (hsk : stop k = true) :
    ∀ r n, n ≤ k → k < n + r →
    (∀ i, n ≤ i → i < k → stop i = false ∧ fate i = FrameFate.ok) →
    capturedFiles (captureLoop total stop fate r n) = List.range' n (k - n) ∧
    (emittedProgress (captureLoop total stop fate r n)).getLast?
      = some ⟨k, total, CaptureStatus.cancelled, none⟩
  | 0, n, hnk, hkr, _ => absurd hkr (by omega)
  | r + 1, n, hnk, hkr, hpre => by
    rcases Nat.lt_or_ge n k with hlt | hge
    · have hn := hpre n le_rfl hlt
      have hstep : captureLoop total stop fate (r + 1) n
          = CapEvent.check n :: (captureIteration (fate n) n total
              ++ captureLoop total stop fate r (n + 1)) := by
        simp [captureLoop, hn.1]
      have ih := captureLoop_cancel total k stop fate hsk r (n + 1)
        hlt (by omega) (fun i hi1 hi2 => hpre i (by omega) hi2)
      have hne : emittedProgress (captureLoop total stop fate r (n + 1)) ≠ [] := by
        intro hempty
        have := ih.2
        rw [hempty] at this
        simp at this
      constructor
      · rw [hstep]
        have : capturedFiles (CapEvent.check n :: (captureIteration (fate n) n total
            ++ captureLoop total stop fate r (n + 1)))
            = capturedFiles (captureIteration (fate n) n total
              ++ captureLoop total stop fate r (n + 1)) := rfl
        rw [this, capturedFiles_iteration, if_pos hn.2, ih.1]
        have hrange : List.range' n (k - n) = n :: List.range' (n + 1) (k - (n + 1)) := by
          have hkn : k - n = (k - (n + 1)) + 1 := by omega
          rw [hkn, List.range'_succ]
        rw [hrange]
        rfl
      · rw [hstep, emittedProgress_cons_check, emittedProgress_iteration, if_pos hn.2,
          List.getLast?_append_of_ne_nil _ hne]
        exact ih.2
    · have hnk2 : n = k := by omega
      subst hnk2
      have hstep : captureLoop total stop fate (r + 1) n
          = [CapEvent.check n, CapEvent.emit ⟨n, total, CaptureStatus.cancelled, none⟩] := by
        simp [captureLoop, hsk]
      rw [hstep]
      refine ⟨by simp [capturedFiles], by simp [emittedProgress]⟩

theorem stopFrameCapture_second_call_noop (s : CaptureState) :
    stopFrameCapture (stopFrameCapture s).1 = ((stopFrameCapture s).1, []) := by
  rcases s with ⟨ic, ss, w, ff, cf, tf⟩
  cases w with
  | none => simp [stopFrameCapture]
  | some w0 =>
    rcases w0 with ⟨d⟩
    cases d <;> simp [stopFrameCapture]

/-- C3 counterexample: with `totalFrames = 2`, a transient failure at
frame 0 and cancellation observed at the next iteration check, the run
has written `k = 0` frames, yet the terminal `cancelled` event reports
`currentFrame = 1` (the loop index), not `0` — refuting
"cancelling a generative capture that has written k frames ... emits
... currentFrame = k" as universally stated. -/
theorem cancelled_currentFrame_counts_iterations :
    capturedFiles (captureGenerativeFrames 2 (fun n => decide (1 ≤ n))
      (fun _ => FrameFate.failSnapshot)) = [] ∧
    (emittedProgress (captureGenerativeFrames 2 (fun n => decide (1 ≤ n))
      (fun _ => FrameFate.failSnapshot))).getLast?
      = some ⟨1, 2, CaptureStatus.cancelled, none⟩ := by
  exact ⟨rfl, rfl⟩

/-- C3 (amended): cancelling a generative capture whose first `k`
iterations each completed normally (so exactly frames `0 .. k-1` were
written) stops the loop at its next iteration check and emits a
terminal event with status `cancelled` and `currentFrame = k`; the `k`
already-written files are exactly preserved (the trace deletes
nothing), and a second `stopFrameCapture` call performs no action and
raises no error.  In general `currentFrame` equals the number of
completed iterations, which is the number of written frames only when
no per-frame failure occurred before the cancellation. -/
theorem cancelled_capture_preserves_frames_and_stop_is_idempotent
    (N k : Nat) (stop : Nat → Bool) (fate : Nat → FrameFate)
    (hk : k < N) (hsk : stop k = true)
    (hstop : ((List.range k).all (fun i => !(stop i))) = true)
    (hfate : ((List.range k).all (fun i => fate i == FrameFate.ok)) = true) :
    capturedFiles (captureGenerativeFrames N stop fate) = List.range k ∧
    (emittedProgress (captureGenerativeFrames N stop fate)).getLast?
      = some ⟨k, N, CaptureStatus.cancelled, none⟩ ∧
    (∀ s : CaptureState,
      stopFrameCapture (stopFrameCapture s).1 = ((stopFrameCapture s).1, [])) := by
  simp only [List.all_eq_true, List.mem_range, Bool.not_eq_true', beq_iff_eq] at hstop hfate
  have h := captureLoop_cancel N k stop fate hsk N 0 (by omega) (by omega)
    (fun i _ hi2 => ⟨hstop i hi2, hfate i hi2⟩)
  refine ⟨?_, h.2, fun s => stopFrameCapture_second_call_noop s⟩
  rw [captureGenerativeFrames, h.1, List.range_eq_range']
  simp

/-- C3 witness: a 3-frame session with all iterations succeeding and
cancellation observed at the check of iteration 2. -/
theorem cancelled_capture_preserves_frames_witness :
    ((2 : Nat) < 3 ∧ (fun n => decide (2 ≤ n)) 2 = true ∧
      ((List.range 2).all (fun i => !((fun n => decide (2 ≤ n)) i))) = true ∧
      ((List.range 2).all (fun i => (fun _ => FrameFate.ok) i == FrameFate.ok)) = true) ∧
    capturedFiles (captureGenerativeFrames 3 (fun n => decide (2 ≤ n))
      (fun _ => FrameFate.ok)) = List.range 2 ∧
    (emittedProgress (captureGenerativeFrames 3 (fun n => decide (2 ≤ n))
      (fun _ => FrameFate.ok))).getLast?
      = some ⟨2, 3, CaptureStatus.cancelled, none⟩ ∧
    (∀ s : CaptureState,
      stopFrameCapture (stopFrameCapture s).1 = ((stopFrameCapture s).1, [])) := by
  refine ⟨by decide, ?_⟩
  have h := cancelled_capture_preserves_frames_and_stop_is_idempotent 3 2
    (fun n => decide (2 ≤ n)) (fun _ => FrameFate.ok)
    (by decide) (by decide) (by decide) (by decide)
  exact ⟨h.1, h.2.1, h.2.2⟩

/-- C6: `parseFilename` implements the variation-marker heuristic
exactly and totally (it is a total function, so it can never raise):
with a `_v{number}` marker, three or more underscore-separated words
before the marker make the first two the artist and the remainder the
title, exactly two make them artist and title, fewer fall back to the
`unknown` artist sentinel; and the three concrete examples of the claim
parse as stated. -/
theorem parseFilename_variation_marker_heuristic :
    parseFilename "sam_shull_color_spots_v1_30s_4k.mp4"
      = ⟨"sam_shull", "color_spots", 1⟩ ∧
    parseFilename "smith_colorflow_v2.mov" = ⟨"smith", "colorflow", 2⟩ ∧
    parseFilename "untitled.mp4" = ⟨"unknown", "untitled", 1⟩ ∧
    (∀ fn before ds a b c rest,
      findVMarker (stripExt (String.data fn)) = some (before, ds) →
      splitUnderscore before = a :: b :: c :: rest →
      parseFilename fn = ⟨String.mk (a ++ '_' :: b),
        String.mk (List.intercalate ['_'] (c :: rest)), digitsToNat ds⟩) ∧
    (∀ fn before ds a b,
      findVMarker (stripExt (String.data fn)) = some (before, ds) →
      splitUnderscore before = [a, b] →
      parseFilename fn = ⟨String.mk a, String.mk b, digitsToNat ds⟩) ∧
    (∀ fn before ds a,
      findVMarker (stripExt (String.data fn)) = some (before, ds) →
      splitUnderscore before = [a] →
      (parseFilename fn).artist = "unknown"
        ∧ (parseFilename fn).variation = digitsToNat ds) := by
  refine ⟨rfl, rfl, rfl, ?_, ?_, ?_⟩
  · intro fn before ds a b c rest h1 h2
    simp [parseFilename, h1, h2]
  · intro fn before ds a b h1 h2
    simp [parseFilename, h1, h2]
  · intro fn before ds a h1 h2
    constructor <;> simp [parseFilename, h1, h2]

/-- C6 witness: the two-word branch of the heuristic applied at
`smith_colorflow_v2.mov`. -/
theorem parseFilename_variation_marker_heuristic_witness :
    findVMarker (stripExt (String.data "smith_colorflow_v2.mov"))
      = some (String.data "smith_colorflow", ['2']) ∧
    splitUnderscore (String.data "smith_colorflow")
      = [String.data "smith", String.data "colorflow"] ∧
    parseFilename "smith_colorflow_v2.mov"
      = ⟨String.mk (String.data "smith"), String.mk (String.data "colorflow"),
         digitsToNat ['2']⟩ :=
  ⟨rfl, rfl,
    parseFilename_variation_marker_heuristic.2.2.2.2.1 "smith_colorflow_v2.mov"
      (String.data "smith_colorflow") ['2'] (String.data "smith")
      (String.data "colorflow") rfl rfl⟩

/-- C7: `processVideoFile` throws the minimum-duration error for every
probed duration strictly below the 30-second threshold — rejecting
before the output directory is created or any thumbnail or encode job
starts (the `Except.error` result carries no folder and no job
updates) — and accepts every input whose duration is 30 seconds or
more. -/
theorem processVideoFile_minimum_duration_check (fn : String) (d : ℚ)
    (thumbFail : Format → Bool) (encFail : Format → Codec → Bool) :
    (d < MINIMUM_DURATION_SECONDS →
      processVideoFile fn 0 (some d) thumbFail encFail
        = Except.error ("Video \"" ++ fn ++ "\" is only " ++ toString (round d)
            ++ "s. Minimum required duration is 30s.")) ∧
    (MINIMUM_DURATION_SECONDS ≤ d →
      (processVideoFile fn 0 (some d) thumbFail encFail).isOk = true) := by
  constructor
  · intro h
    simp [processVideoFile, getVideoDuration, h]
  · intro h
    simp [processVideoFile, getVideoDuration, not_lt.mpr h, Except.isOk, Except.toBool]

/-- C7 witness: a 29-second input is rejected with the minimum-duration
error; a 30-second input is accepted. -/
theorem processVideoFile_minimum_duration_check_witness :
    ((29 : ℚ) < MINIMUM_DURATION_SECONDS) ∧
    processVideoFile "untitled.mp4" 0 (some 29) (fun _ => false) (fun _ _ => false)
      = Except.error ("Video \"" ++ "untitled.mp4" ++ "\" is only "
          ++ toString (round (29 : ℚ)) ++ "s. Minimum required duration is 30s.") ∧
    (MINIMUM_DURATION_SECONDS ≤ (30 : ℚ)) ∧
    (processVideoFile "untitled.mp4" 0 (some 30) (fun _ => false)
      (fun _ _ => false)).isOk = true := by
  refine ⟨by norm_num [MINIMUM_DURATION_SECONDS], ?_, by norm_num [MINIMUM_DURATION_SECONDS], ?_⟩
  · exact (processVideoFile_minimum_duration_check "untitled.mp4" 29 (fun _ => false)
      (fun _ _ => false)).1 (by norm_num [MINIMUM_DURATION_SECONDS])
  · exact (processVideoFile_minimum_duration_check "untitled.mp4" 30 (fun _ => false)
      (fun _ _ => false)).2 (by norm_num [MINIMUM_DURATION_SECONDS])

/-- C9 counterexample: for the not-found base path (`base = none`) the
download-all driver surfaces the listing error `List failed: 404` to its
caller instead of treating it as an empty result, while the remote scan
does return the empty result — refuting the claim for "every
download-direction operation". -/
theorem downloadAllContent_surfaces_notFound :
    (downloadAllContent none (fun _ => true)).2 = some "List failed: 404" ∧
    (∀ pr, DlEvent.progress pr ∈ (downloadAllContent none (fun _ => true)).1 →
      pr.status = DlStatus.listing) := by
  refine ⟨rfl, ?_⟩
  intro pr hmem
  simp [downloadAllContent] at hmem
  rw [hmem]

/-- C9 (amended): only the remote scan (`scanStorageContent`) treats a
not-found base path as the empty result `(0, 0)`; the download-all
driver (`downloadAllContent`) has no handler around its listing and
surfaces the not-found listing error to its caller, transferring
nothing. -/
theorem notFound_empty_for_scan_error_for_download :
    scanStorageContent none = Except.ok (0, 0) ∧
    (∀ dl : String → Bool,
      (downloadAllContent none dl).2 = some "List failed: 404" ∧
      ∀ name, DlEvent.transfer name ∉ (downloadAllContent none dl).1) := by
  refine ⟨rfl, fun dl => ⟨rfl, ?_⟩⟩
  intro name hmem
  simp [downloadAllContent] at hmem

/-- C10: when ffprobe exits with code 0 but its output does not parse
as a number, the video-processor `getVideoDuration` resolves to exactly
30 — the value of `MINIMUM_DURATION_SECONDS` — so `processVideoFile`
accepts such an input (the `videoDuration < MINIMUM_DURATION_SECONDS`
check is strict and `30 < 30` fails). -/
theorem getVideoDuration_unparsable_resolves_threshold :
    getVideoDuration 0 none = Except.ok MINIMUM_DURATION_SECONDS ∧
    (∀ (fn : String) (thumbFail : Format → Bool) (encFail : Format → Codec → Bool),
      (processVideoFile fn 0 none thumbFail encFail).isOk = true) := by
  constructor
  · rfl
  · intro fn tf ef
    simp [processVideoFile, getVideoDuration, MINIMUM_DURATION_SECONDS, Except.isOk,
      Except.toBool]

/-- C4: whenever a session is already in flight (`state.isCapturing` in
`frame-capturer.ts`, `state.isRecording` in `recorder.ts`), invoking
`captureGenerativeFrames`, `extractVideoFrames` or `startRecording`
again immediately reports the corresponding "already in progress"
error, performs no further event of any kind, and returns with the
module state exactly as it was. -/
theorem second_session_reports_busy_and_leaves_state
    (s : CaptureState) (rs : RecordingState) (inp : CaptureRunInput)
    (probe : Except String VideoInfo) (fps : ℚ) (lastFrame : Nat)
    (stopRequested : Bool) (outcome : FfmpegEnd) (duration : Nat)
    (dialogOk loadOk : Bool) (stop : Nat → Bool) (fate : Nat → FrameFate)
    (hc : s.isCapturing = true) (hr : rs.isRecording = true) :
    captureGenerativeFramesRun s inp
      = (s, [CapEvent.emit ⟨0, 0, CaptureStatus.error,
              some "Capture already in progress"⟩]) ∧
    extractVideoFramesRun s probe fps lastFrame stopRequested outcome
      = (s, [⟨0, 0, CaptureStatus.error, some "Capture already in progress"⟩]) ∧
    startRecording rs duration dialogOk loadOk stop fate
      = (rs, RecordingOutcome.busy) := by
  refine ⟨?_, ?_, ?_⟩
  · simp [captureGenerativeFramesRun, hc]
  · simp [extractVideoFramesRun, hc]
  · simp [startRecording, hr]

/-- C4 witness: a capturing frame-capturer state and a recording
recorder state, each asked to start a second session. -/
theorem second_session_reports_busy_witness :
    ((⟨true, false, none, false, 0, 0⟩ : CaptureState).isCapturing = true ∧
      (⟨true, false, false, 0, 0⟩ : RecordingState).isRecording = true) ∧
    captureGenerativeFramesRun ⟨true, false, none, false, 0, 0⟩
        ⟨5, true, fun _ => false, fun _ => FrameFate.ok⟩
      = (⟨true, false, none, false, 0, 0⟩,
         [CapEvent.emit ⟨0, 0, CaptureStatus.error,
           some "Capture already in progress"⟩]) ∧
    extractVideoFramesRun ⟨true, false, none, false, 0, 0⟩
        (Except.ok ⟨30, 10, 1920, 1080⟩) 30 0 false (FfmpegEnd.closed 0)
      = (⟨true, false, none, false, 0, 0⟩,
         [⟨0, 0, CaptureStatus.error, some "Capture already in progress"⟩]) ∧
    startRecording ⟨true, false, false, 0, 0⟩ 10 true true
        (fun _ => false) (fun _ => FrameFate.ok)
      = (⟨true, false, false, 0, 0⟩, RecordingOutcome.busy) := by
  have h := second_session_reports_busy_and_leaves_state
    ⟨true, false, none, false, 0, 0⟩ ⟨true, false, false, 0, 0⟩
    ⟨5, true, fun _ => false, fun _ => FrameFate.ok⟩
    (Except.ok ⟨30, 10, 1920, 1080⟩) 30 0 false (FfmpegEnd.closed 0) 10 true true
    (fun _ => false) (fun _ => FrameFate.ok) rfl rfl
  exact ⟨⟨rfl, rfl⟩, h.1, h.2.1, h.2.2⟩

theorem jobTerminals_append (a b : List JobUpdate) :
    jobTerminals (a ++ b) = jobTerminals a ++ jobTerminals b := by
  simp [jobTerminals]

theorem jobTerminals_thumbnail (fc : FormatConfig) (fails : Bool) :
    jobTerminals (thumbnailUpdates fc fails) = [] := by
  cases fails <;> rfl

theorem jobTerminals_encode (fc : FormatConfig) (c : Codec) (fails : Bool) :
    jobTerminals (encodeUpdates fc c fails) = [encodeVerdict fc c fails] := by
  cases fails <;> rfl

/-- C5: for every accepted input, the batch runs all 3 formats × 3
codecs = 9 encode jobs; the per-job verdicts, in enumeration order, are
exactly one per `(format, codec)` pair — `error` for precisely the jobs
whose encode failed and `completed` for every other — so a single
failing job is reported as `error` for that job only and never stops
the remaining jobs from running and reporting their own status. -/
theorem processVideoFile_fanout_isolates_failures (fn : String) (d : ℚ)
    (thumbFail : Format → Bool) (encFail : Format → Codec → Bool)
    (folder : String) (us : List JobUpdate)
    (h : processVideoFile fn 0 (some d) thumbFail encFail
      = Except.ok (folder, us)) :
    jobTerminals us
      = FORMAT_CONFIGS.flatMap (fun fc =>
          CODECS.map (fun c => encodeVerdict fc c (encFail fc.name c))) ∧
    (jobTerminals us).length = 9 ∧
    (∀ fc ∈ FORMAT_CONFIGS, ∀ c ∈ CODECS,
      encodeVerdict fc c (encFail fc.name c) ∈ jobTerminals us) := by
  have hus : us = FORMAT_CONFIGS.flatMap (fun fc =>
      thumbnailUpdates fc (thumbFail fc.name) ++
      CODECS.flatMap (fun c => encodeUpdates fc c (encFail fc.name c))) := by
    by_cases hd : d < MINIMUM_DURATION_SECONDS
    · simp [processVideoFile, getVideoDuration, hd] at h
    · simp [processVideoFile, getVideoDuration, hd] at h
      exact h.2.symm
  have hterm : jobTerminals us
      = FORMAT_CONFIGS.flatMap (fun fc =>
          CODECS.map (fun c => encodeVerdict fc c (encFail fc.name c))) := by
    rw [hus]
    simp only [FORMAT_CONFIGS, CODECS, List.flatMap_cons, List.flatMap_nil,
      List.append_nil, jobTerminals_append, jobTerminals_thumbnail,
      jobTerminals_encode, List.map_cons, List.map_nil, List.nil_append,
      List.cons_append, List.append_assoc]
  refine ⟨hterm, ?_, ?_⟩
  · rw [hterm]
    simp [FORMAT_CONFIGS, CODECS]
  · intro fc hfc c hc
    rw [hterm]
    simp only [List.mem_flatMap, List.mem_map]
    exact ⟨fc, hfc, c, hc, rfl⟩

/-- C5 witness: a 3×3 batch on a 45-second input where exactly the
`(featured, hevc)` encode job fails: all nine jobs report a verdict and
exactly that one is `error`. -/
theorem processVideoFile_fanout_isolates_failures_witness :
    processVideoFile "smith_colorflow_v2.mov" 0 (some 45) (fun _ => false)
        (fun f c => f == Format.featured && c == Codec.hevc)
      = Except.ok ("smith_colorflow_v2",
          FORMAT_CONFIGS.flatMap (fun fc =>
            thumbnailUpdates fc false ++
            CODECS.flatMap (fun c => encodeUpdates fc c
              (fc.name == Format.featured && c == Codec.hevc)))) ∧
    jobTerminals (FORMAT_CONFIGS.flatMap (fun fc =>
        thumbnailUpdates fc false ++
        CODECS.flatMap (fun c => encodeUpdates fc c
          (fc.name == Format.featured && c == Codec.hevc))))
      = FORMAT_CONFIGS.flatMap (fun fc =>
          CODECS.map (fun c => encodeVerdict fc c
            (fc.name == Format.featured && c == Codec.hevc))) ∧
    (jobTerminals (FORMAT_CONFIGS.flatMap (fun fc =>
        thumbnailUpdates fc false ++
        CODECS.flatMap (fun c => encodeUpdates fc c
          (fc.name == Format.featured && c == Codec.hevc))))).length = 9 := by
  have h : processVideoFile "smith_colorflow_v2.mov" 0 (some 45) (fun _ => false)
        (fun f c => f == Format.featured && c == Codec.hevc)
      = Except.ok ("smith_colorflow_v2",
          FORMAT_CONFIGS.flatMap (fun fc =>
            thumbnailUpdates fc false ++
            CODECS.flatMap (fun c => encodeUpdates fc c
              (fc.name == Format.featured && c == Codec.hevc)))) := rfl
  have happ := processVideoFile_fanout_isolates_failures "smith_colorflow_v2.mov" 45
    (fun _ => false) (fun f c => f == Format.featured && c == Codec.hevc)
    "smith_colorflow_v2"
    (FORMAT_CONFIGS.flatMap (fun fc =>
      thumbnailUpdates fc false ++
      CODECS.flatMap (fun c => encodeUpdates fc c
        (fc.name == Format.featured && c == Codec.hevc)))) h
  exact ⟨h, happ.1, happ.2.1⟩

theorem captureIteration_frameIx_bounds (fate : FrameFate) (n total : Nat) :
    ∀ e ∈ captureIteration fate n total, n ≤ e.frameIx ∧ e.frameIx ≤ n + 1 := by
  cases fate <;>
    simp [captureIteration, List.forall_mem_cons, CapEvent.frameIx]

theorem captureLoop_frameIx_lb (total : Nat) (stop : Nat → Bool)
    (fate : Nat → FrameFate) :
    ∀ r n, n + r ≤ total → ∀ e ∈ captureLoop total stop fate r n, n ≤ e.frameIx
  | 0, n, h => by
    simp [captureLoop, CapEvent.frameIx]
    omega
  | r + 1, n, h => by
    intro e he
    by_cases hs : stop n = true
    · simp [captureLoop, hs] at he
      rcases he with rfl | rfl <;> simp [CapEvent.frameIx]
    · simp [captureLoop, hs] at he
      rcases he with rfl | he | he
      · simp [CapEvent.frameIx]
      · exact (captureIteration_frameIx_bounds (fate n) n total e he).1
      · have := captureLoop_frameIx_lb total stop fate r (n + 1) (by omega) e he
        omega

theorem captureLoop_frames_monotone (total : Nat) (stop : Nat → Bool)
    (fate : Nat → FrameFate) :
    ∀ r n, n + r ≤ total →
      (captureLoop total stop fate r n).Pairwise
        (fun a b => a.frameIx ≤ b.frameIx)
  | 0, n, h => by simp [captureLoop]
  | r + 1, n, h => by
    by_cases hs : stop n = true
    · simp [captureLoop, hs, CapEvent.frameIx]
    · rw [show captureLoop total stop fate (r + 1) n
          = CapEvent.check n :: (captureIteration (fate n) n total
            ++ captureLoop total stop fate r (n + 1)) from by simp [captureLoop, hs]]
      rw [List.pairwise_cons]
      constructor
      · intro b hb
        rcases List.mem_append.mp hb with hb | hb
        · exact (captureIteration_frameIx_bounds (fate n) n total b hb).1
        · have hx := captureLoop_frameIx_lb total stop fate r (n + 1) (by omega) b hb
          show n ≤ b.frameIx
          omega
      · rw [List.pairwise_append]
        refine ⟨?_, captureLoop_frames_monotone total stop fate r (n + 1) (by omega), ?_⟩
        · cases hf : fate n <;> simp [captureIteration, CapEvent.frameIx]
        · intro a ha b hb
          have h1 := (captureIteration_frameIx_bounds (fate n) n total a ha).2
          have h2 := captureLoop_frameIx_lb total stop fate r (n + 1) (by omega) b hb
          omega

theorem recIteration_frameIx_bounds (fate : FrameFate) (n : Nat) :
    ∀ e ∈ recIteration fate n, n ≤ e.frameIx ∧ e.frameIx ≤ n + 1 := by
  cases fate <;>
    simp [recIteration, List.forall_mem_cons, RecEvent.frameIx]

theorem recLoop_frameIx_lb (total : Nat) (stop : Nat → Bool)
    (fate : Nat → FrameFate) :
    ∀ r n, n + r ≤ total →
      ∀ e ∈ captureFramesSequentially total stop fate r n, n ≤ e.frameIx
  | 0, n, h => by
    simp [captureFramesSequentially, RecEvent.frameIx]
    omega
  | r + 1, n, h => by
    intro e he
    by_cases hs : stop n = true
    · simp [captureFramesSequentially, hs] at he
      subst he
      simp [RecEvent.frameIx]
    · simp [captureFramesSequentially, hs] at he
      rcases he with rfl | he | he
      · simp [RecEvent.frameIx]
      · exact (recIteration_frameIx_bounds (fate n) n e he).1
      · have := recLoop_frameIx_lb total stop fate r (n + 1) (by omega) e he
        omega

theorem recLoop_frames_monotone (total : Nat) (stop : Nat → Bool)
    (fate : Nat → FrameFate) :
    ∀ r n, n + r ≤ total →
      (captureFramesSequentially total stop fate r n).Pairwise
        (fun a b => a.frameIx ≤ b.frameIx)
  | 0, n, h => by simp [captureFramesSequentially]
  | r + 1, n, h => by
    by_cases hs : stop n = true
    · simp [captureFramesSequentially, hs]
    · rw [show captureFramesSequentially total stop fate (r + 1) n
          = RecEvent.check n :: (recIteration (fate n) n
            ++ captureFramesSequentially total stop fate r (n + 1)) from by
        simp [captureFramesSequentially, hs]]
      rw [List.pairwise_cons]
      constructor
      · intro b hb
        rcases List.mem_append.mp hb with hb | hb
        · exact (recIteration_frameIx_bounds (fate n) n b hb).1
        · have hx := recLoop_frameIx_lb total stop fate r (n + 1) (by omega) b hb
          show n ≤ b.frameIx
          omega
      · rw [List.pairwise_append]
        refine ⟨?_, recLoop_frames_monotone total stop fate r (n + 1) (by omega), ?_⟩
        · cases hf : fate n <;> simp [recIteration, RecEvent.frameIx]
        · intro a ha b hb
          have h1 := (recIteration_frameIx_bounds (fate n) n a ha).2
          have h2 := recLoop_frameIx_lb total stop fate r (n + 1) (by omega) b hb
          omega

/-- C2: in both sequential capture loops (`captureGenerativeFrames` in
`frame-capturer.ts` and `captureFramesSequentially` in `recorder.ts`),
the completion of frame `i`'s file write strictly precedes the start of
frame `i+1`'s capture (its animation advance, and hence its snapshot) in
every execution — so at most one frame's encoded bytes is ever held
between a snapshot and its flushed write. -/
theorem frame_write_completes_before_next_capture :
    (∀ (N : Nat) (stop : Nat → Bool) (fate : Nat → FrameFate) (i : Nat)
        (p q : Fin (captureGenerativeFrames N stop fate).length),
        (captureGenerativeFrames N stop fate).get p = CapEvent.writeEnd i →
        (captureGenerativeFrames N stop fate).get q = CapEvent.advance (i + 1) →
        p.val < q.val) ∧
    (∀ (N : Nat) (stop : Nat → Bool) (fate : Nat → FrameFate) (i : Nat)
        (p q : Fin (captureFramesSequentially N stop fate N 0).length),
        (captureFramesSequentially N stop fate N 0).get p = RecEvent.writeEnd i →
        (captureFramesSequentially N stop fate N 0).get q = RecEvent.advance (i + 1) →
        p.val < q.val) := by
  constructor
  · intro N stop fate i p q hp hq
    have hpw : (captureGenerativeFrames N stop fate).Pairwise
        (fun a b => a.frameIx ≤ b.frameIx) :=
      captureLoop_frames_monotone N stop fate N 0 (by omega)
    have hget := List.pairwise_iff_get.mp hpw
    rcases Nat.lt_trichotomy p.val q.val with hlt | heq | hgt
    · exact hlt
    · exfalso
      have hpq : p = q := Fin.ext heq
      rw [hpq, hq] at hp
      simp at hp
    · exfalso
      have hle := hget q p (Fin.lt_def.mpr hgt)
      rw [hp, hq] at hle
      simp [CapEvent.frameIx] at hle
  · intro N stop fate i p q hp hq
    have hpw : (captureFramesSequentially N stop fate N 0).Pairwise
        (fun a b => a.frameIx ≤ b.frameIx) :=
      recLoop_frames_monotone N stop fate N 0 (by omega)
    have hget := List.pairwise_iff_get.mp hpw
    rcases Nat.lt_trichotomy p.val q.val with hlt | heq | hgt
    · exact hlt
    · exfalso
      have hpq : p = q := Fin.ext heq
      rw [hpq, hq] at hp
      simp at hp
    · exfalso
      have hle := hget q p (Fin.lt_def.mpr hgt)
      rw [hp, hq] at hle
      simp [RecEvent.frameIx] at hle

/-- C2 witness: in the 2-frame trace of each loop, frame 0's `writeEnd`
sits at position 4 and frame 1's `advance` at position 7. -/
theorem frame_write_completes_before_next_capture_witness :
    (captureGenerativeFrames 2 (fun _ => false) (fun _ => FrameFate.ok)).get
        ⟨4, by decide⟩ = CapEvent.writeEnd 0 ∧
    (captureGenerativeFrames 2 (fun _ => false) (fun _ => FrameFate.ok)).get
        ⟨7, by decide⟩ = CapEvent.advance 1 ∧
    (captureFramesSequentially 2 (fun _ => false) (fun _ => FrameFate.ok) 2 0).get
        ⟨4, by decide⟩ = RecEvent.writeEnd 0 ∧
    (captureFramesSequentially 2 (fun _ => false) (fun _ => FrameFate.ok) 2 0).get
        ⟨7, by decide⟩ = RecEvent.advance 1 ∧
    (4 : Nat) < 7 := by
  refine ⟨by decide, by decide, by decide, by decide, ?_⟩
  exact frame_write_completes_before_next_capture.1 2 (fun _ => false)
    (fun _ => FrameFate.ok) 0 ⟨4, by decide⟩ ⟨7, by decide⟩ (by decide) (by decide)

mutual
theorem listFilesRecursively_length : ∀ es : List REntry,
    (listFilesRecursively es).length = specLeafCountList es
  | [] => rfl
  | e :: es => by
    simp [listFilesRecursively, specLeafCountList, List.length_append,
      listFilesRecursively_length es, listEntryFiles_length e]
theorem listEntryFiles_length : ∀ e : REntry,
    (listEntryFiles e).length = specLeafCount e
  | .file n sz => rfl
  | .dir n cs => by
    simp [listEntryFiles, specLeafCount, listFilesRecursively_length cs]
end

mutual
theorem listFilesRecursively_bytes : ∀ es : List REntry,
    ((listFilesRecursively es).map RFile.length).sum = specLeafBytesList es
  | [] => rfl
  | e :: es => by
    simp [listFilesRecursively, specLeafBytesList,
      listFilesRecursively_bytes es, listEntryFiles_bytes e]
theorem listEntryFiles_bytes : ∀ e : REntry,
    ((listEntryFiles e).map RFile.length).sum = specLeafBytes e
  | .file n sz => by simp [listEntryFiles, specLeafBytes]
  | .dir n cs => by
    simp [listEntryFiles, specLeafBytes, listFilesRecursively_bytes cs]
end

mutual
theorem listTrace_eq_listCall : ∀ es : List REntry,
    ∀ ev ∈ listTrace es, ev = DlEvent.listCall
  | [] => by simp [listTrace]
  | e :: es => by
    intro ev hev
    simp only [listTrace] at hev
    rcases List.mem_append.mp hev with h | h
    · exact listTraceEntry_eq_listCall e ev h
    · exact listTrace_eq_listCall es ev h
theorem listTraceEntry_eq_listCall : ∀ e : REntry,
    ∀ ev ∈ listTraceEntry e, ev = DlEvent.listCall
  | .file n sz => by simp [listTraceEntry]
  | .dir n cs => by
    intro ev hev
    simp only [listTraceEntry, List.mem_cons] at hev
    rcases hev with rfl | h
    · rfl
    · exact listTrace_eq_listCall cs ev h
end

theorem transferLoop_progress_totals (T B : Nat) (dl : String → Bool) :
    ∀ fs done bytes pr,
      DlEvent.progress pr ∈ (transferLoop T B dl fs done bytes).1 →
      pr.totalFiles = T ∧ pr.totalBytes = B
  | [], done, bytes, pr => by
    intro h
    simp [transferLoop] at h
    simp [h]
  | f :: fs, done, bytes, pr => by
    intro h
    by_cases hd : dl f.name = true
    · simp [transferLoop, hd] at h
      rcases h with h | h | h
      · simp [h]
      · simp [h]
      · exact transferLoop_progress_totals T B dl fs (done + 1) (bytes + f.length) pr h
    · simp [transferLoop, hd] at h
      rcases h with h | h <;> simp [h]

theorem transferLoop_no_listCall (T B : Nat) (dl : String → Bool) :
    ∀ fs done bytes, ∀ ev ∈ (transferLoop T B dl fs done bytes).1,
      ev.isListCall = false
  | [], done, bytes => by
    simp [transferLoop, DlEvent.isListCall]
  | f :: fs, done, bytes => by
    intro ev hev
    by_cases hd : dl f.name = true
    · simp [transferLoop, hd] at hev
      rcases hev with rfl | rfl | rfl | h
      · rfl
      · rfl
      · rfl
      · exact transferLoop_no_listCall T B dl fs (done + 1) (bytes + f.length) ev h
    · simp [transferLoop, hd] at hev
      rcases hev with rfl | rfl | rfl <;> rfl

theorem append_listCalls_before_transfers (L R : List DlEvent)
    (hL : ∀ e ∈ L, e.isTransfer = false) (hR : ∀ e ∈ R, e.isListCall = false) :
    ∀ p q : Fin (L ++ R).length,
      ((L ++ R).get p).isListCall = true →
      ((L ++ R).get q).isTransfer = true →
      p.val < q.val := by
  intro p q hp hq
  have hplt : p.val < L.length := by
    by_contra hge
    push_neg at hge
    have hmem : (L ++ R).get p ∈ R := by
      rw [List.get_eq_getElem, List.getElem_append_right hge]
      exact List.getElem_mem _
    rw [hR _ hmem] at hp
    exact Bool.noConfusion hp
  have hqge : L.length ≤ q.val := by
    by_contra hlt
    push_neg at hlt
    have hmem : (L ++ R).get q ∈ L := by
      rw [List.get_eq_getElem, List.getElem_append_left hlt]
      exact List.getElem_mem _
    rw [hL _ hmem] at hq
    exact Bool.noConfusion hq
  omega

/-- C8: for every remote tree, the complete recursive listing (every
`listFiles` call, at any nesting depth) precedes every file transfer in
the `downloadAllContent` trace, and every transfer-phase progress event
(each event whose status is not `listing`) carries
`totalFiles`/`totalBytes` equal to the count and byte-sum over only the
leaf (non-directory) entries of the whole tree. -/
theorem downloadAllContent_enumerates_before_transfers
    (entries : List REntry) (dl : String → Bool) :
    (∀ pr, DlEvent.progress pr ∈ (downloadAllContent (some entries) dl).1 →
      pr.status ≠ DlStatus.listing →
      pr.totalFiles = specLeafCountList entries
        ∧ pr.totalBytes = specLeafBytesList entries) ∧
    (∀ p q : Fin (downloadAllContent (some entries) dl).1.length,
      ((downloadAllContent (some entries) dl).1.get p).isListCall = true →
      ((downloadAllContent (some entries) dl).1.get q).isTransfer = true →
      p.val < q.val) := by
  have hev : (downloadAllContent (some entries) dl).1
      = (DlEvent.progress ⟨0, 0, "", 0, 0, DlStatus.listing, none⟩
          :: DlEvent.listCall :: listTrace entries)
        ++ (DlEvent.progress ⟨(listFilesRecursively entries).length, 0, "",
              ((listFilesRecursively entries).map RFile.length).sum, 0,
              DlStatus.downloading, none⟩
            :: (transferLoop (listFilesRecursively entries).length
                 ((listFilesRecursively entries).map RFile.length).sum dl
                 (listFilesRecursively entries) 0 0).1) := rfl
  constructor
  · intro pr hpr hst
    rw [hev] at hpr
    rcases List.mem_append.mp hpr with h | h
    · simp only [List.mem_cons] at h
      rcases h with h | h | h
      · injection h with h'
        rw [h'] at hst
        exact absurd rfl hst
      · exact DlEvent.noConfusion h
      · exact DlEvent.noConfusion (listTrace_eq_listCall entries _ h)
    · simp only [List.mem_cons] at h
      rcases h with h | h
      · injection h with h'
        rw [h']
        exact ⟨listFilesRecursively_length entries, listFilesRecursively_bytes entries⟩
      · have ht := transferLoop_progress_totals (listFilesRecursively entries).length
          ((listFilesRecursively entries).map RFile.length).sum dl
          (listFilesRecursively entries) 0 0 pr h
        exact ⟨ht.1.trans (listFilesRecursively_length entries),
          ht.2.trans (listFilesRecursively_bytes entries)⟩
  · have hL : ∀ e ∈ DlEvent.progress ⟨0, 0, "", 0, 0, DlStatus.listing, none⟩
        :: DlEvent.listCall :: listTrace entries, e.isTransfer = false := by
      intro e he
      simp only [List.mem_cons] at he
      rcases he with rfl | rfl | he
      · rfl
      · rfl
      · rw [listTrace_eq_listCall entries e he]
        rfl
    have hR : ∀ e ∈ DlEvent.progress ⟨(listFilesRecursively entries).length, 0, "",
          ((listFilesRecursively entries).map RFile.length).sum, 0,
          DlStatus.downloading, none⟩
        :: (transferLoop (listFilesRecursively entries).length
             ((listFilesRecursively entries).map RFile.length).sum dl
             (listFilesRecursively entries) 0 0).1, e.isListCall = false := by
      intro e he
      simp only [List.mem_cons] at he
      rcases he with rfl | he
      · rfl
      · exact transferLoop_no_listCall (listFilesRecursively entries).length
          ((listFilesRecursively entries).map RFile.length).sum dl
          (listFilesRecursively entries) 0 0 e he
    exact fun p q hp hq =>
      append_listCalls_before_transfers _ _ hL hR p q hp hq

/-- C8 witness: a remote tree with a subdirectory nested two levels
deep; the transfer-phase progress event reports 3 files and 60 bytes
(the leaf count and byte sum), and the deepest listing call (position
3) precedes the first transfer (position 6). -/
theorem downloadAllContent_enumerates_before_transfers_witness :
    (DlEvent.progress ⟨3, 0, "", 60, 0, DlStatus.downloading, none⟩
      ∈ (downloadAllContent (some [REntry.file "a" 10,
          REntry.dir "d1" [REntry.file "b" 20,
            REntry.dir "d2" [REntry.file "c" 30]]]) (fun _ => true)).1) ∧
    (3 = specLeafCountList [REntry.file "a" 10,
        REntry.dir "d1" [REntry.file "b" 20,
          REntry.dir "d2" [REntry.file "c" 30]]]
      ∧ 60 = specLeafBytesList [REntry.file "a" 10,
          REntry.dir "d1" [REntry.file "b" 20,
            REntry.dir "d2" [REntry.file "c" 30]]]) ∧
    ((downloadAllContent (some [REntry.file "a" 10,
        REntry.dir "d1" [REntry.file "b" 20,
          REntry.dir "d2" [REntry.file "c" 30]]]) (fun _ => true)).1.get
        ⟨3, by decide⟩).isListCall = true ∧
    ((downloadAllContent (some [REntry.file "a" 10,
        REntry.dir "d1" [REntry.file "b" 20,
          REntry.dir "d2" [REntry.file "c" 30]]]) (fun _ => true)).1.get
        ⟨6, by decide⟩).isTransfer = true ∧
    (3 : Nat) < 6 := by
  refine ⟨by decide, ⟨?_, ?_⟩, by decide, by decide, ?_⟩
  · exact ((downloadAllContent_enumerates_before_transfers
      [REntry.file "a" 10, REntry.dir "d1" [REntry.file "b" 20,
        REntry.dir "d2" [REntry.file "c" 30]]] (fun _ => true)).1
      ⟨3, 0, "", 60, 0, DlStatus.downloading, none⟩ (by decide) (by decide)).1.symm
  · exact ((downloadAllContent_enumerates_before_transfers
      [REntry.file "a" 10, REntry.dir "d1" [REntry.file "b" 20,
        REntry.dir "d2" [REntry.file "c" 30]]] (fun _ => true)).1
      ⟨3, 0, "", 60, 0, DlStatus.downloading, none⟩ (by decide) (by decide)).2.symm
  · exact (downloadAllContent_enumerates_before_transfers
      [REntry.file "a" 10, REntry.dir "d1" [REntry.file "b" 20,
        REntry.dir "d2" [REntry.file "c" 30]]] (fun _ => true)).2
      ⟨3, by decide⟩ ⟨6, by decide⟩ (by decide) (by decide)
